import Mathlib

/-!
Verification of the `timey` benchmark driver (src/index.js).

The driver sweeps a parameter grid of (external, linkonce) symbol counts,
runs one benchmark per grid point strictly serially via a promise chain,
and renders the timing results as a space-separated table.

Modelling conventions:
* A settled promise in the strictly serial part of the program is embedded
  as a state transformer over an invocation trace (`Prom`): running it
  threads a log of the task indices that were actually invoked.  `.then`
  on a rejected promise skips its callback, which is exactly the error
  case of `prom_then`.
* Machine numbers are embedded as `Nat` / `Int` / `Rat` with JavaScript's
  `Math.floor` as `Int.floor` and `%` as truncated remainder; for the
  magnitudes in the claims, double-precision arithmetic is exact, so exact
  arithmetic is a faithful model.
* The filesystem work directory is a duplicate-free list of file names
  (relative to the work directory); `glob` is `List.filter` against the
  pattern and `fs.unlinkSync` fails on a missing file.
-/

/-- A promise in the serial chain: given the invocation trace so far,
produce the extended trace and either a fulfilled value or a rejection. -/
def Prom (ε α : Type) : Type := List Nat → List Nat × Except ε α

/-- `Promise.resolve v`: no effect on the trace, fulfilled with `v`. -/
def prom_pure {ε α : Type} (v : α) : Prom ε α := fun t => (t, Except.ok v)

/-- `p.then f`: run `p`; only when it is fulfilled is the callback `f`
invoked (a rejected promise propagates unchanged past `.then`). -/
def prom_then {ε α β : Type} (p : Prom ε α) (f : α → Prom ε β) : Prom ε β :=
  fun t =>
    match p t with
    | (t', Except.ok v) => f v t'
    | (t', Except.error e) => (t', Except.error e)

/-- Embedding of `serialize_tasks` (src/index.js lines 108-112):
`tasks.reduce((chain, item) => chain.then(rs => item().then(r => [...rs, r])),
Promise.resolve([]))`. -/
def serialize_tasks {ε α : Type} (tasks : List (Unit → Prom ε α)) : Prom ε (List α) :=
  tasks.foldl
    (fun promise_chain item =>
      prom_then promise_chain (fun chain_results =>
        prom_then (item ()) (fun result => prom_pure (chain_results ++ [result]))))
    (prom_pure [])

/-- An instrumented task: when invoked, it records its index `i` on the
trace and settles with the prescribed outcome `out`. -/
def mkTask {ε α : Type} (i : Nat) (out : Except ε α) : Unit → Prom ε α :=
  fun _ t => (t ++ [i], out)

/-- A list of instrumented tasks with consecutive indices starting at `i`,
one per prescribed outcome. -/
def mkTasks {ε α : Type} (i : Nat) : List (Except ε α) → List (Unit → Prom ε α)
  | [] => []
  | out :: rest => mkTask i out :: mkTasks (i + 1) rest

/-- Expected overall outcome of serially running the prescribed outcomes:
the ordered list of values, or the first error. -/
def serialResult {ε α : Type} : List (Except ε α) → Except ε (List α)
  | [] => Except.ok []
  | Except.ok v :: rest => (serialResult rest).map (fun vs => v :: vs)
  | Except.error e :: _ => Except.error e

/-- Number of tasks that get invoked: all of them if none fails, otherwise
everything up to and including the first failing task. -/
def invokedCount {ε α : Type} : List (Except ε α) → Nat
  | [] => 0
  | Except.ok _ :: rest => invokedCount rest + 1
  | Except.error _ :: _ => 1

/-- A promise that appends a fixed trace fragment `d` and settles with `r`;
the normal forms of the chains arising in `serialize_tasks`. -/
def settled {ε α : Type} (d : List Nat) (r : Except ε α) : Prom ε α :=
  fun t => (t ++ d, r)

theorem prom_then_settled_ok {ε α β : Type} (d : List Nat) (rs : α) (f : α → Prom ε β) :
    prom_then (settled d (Except.ok rs)) f = fun t => f rs (t ++ d) := by
  funext t
  simp [prom_then, settled]

theorem prom_then_settled_error {ε α β : Type} (d : List Nat) (e : ε) (f : α → Prom ε β) :
    prom_then (settled d (Except.error e)) f = settled d (Except.error e) := by
  funext t
  simp [prom_then, settled]

/-- One `serialize_tasks` step applied to a settled fulfilled chain and an
instrumented task. -/
theorem serialize_step_ok {ε α : Type} (d : List Nat) (rs : List α) (i : Nat)
    (out : Except ε α) :
    prom_then (settled d (Except.ok rs)) (fun chain_results =>
        prom_then (mkTask i out ()) (fun result => prom_pure (chain_results ++ [result])))
      = settled (d ++ [i]) (out.map (fun v => rs ++ [v])) := by
  funext t
  cases out with
  | ok v => simp [prom_then, settled, mkTask, prom_pure, Except.map]
  | error e => simp [prom_then, settled, mkTask, Except.map]

/-- A rejected chain absorbs every further step of the fold. -/
theorem serialize_fold_error {ε α : Type} (tasks : List (Unit → Prom ε α))
    (d : List Nat) (e : ε) :
    tasks.foldl
      (fun promise_chain item =>
        prom_then promise_chain (fun chain_results =>
          prom_then (item ()) (fun result => prom_pure (chain_results ++ [result]))))
      (settled d (Except.error e)) = settled d (Except.error e) := by
  induction tasks with
  | nil => rfl
  | cons task rest ih =>
      simp only [List.foldl_cons, prom_then_settled_error]
      exact ih

/-- Characterization of the fold over instrumented tasks starting from a
fulfilled chain: the trace grows by the indices of the invoked tasks and
the outcome is the serial result with the accumulated prefix. -/
theorem serialize_fold_spec {ε α : Type} (outs : List (Except ε α)) :
    ∀ (i : Nat) (d : List Nat) (rs : List α),
    (mkTasks i outs).foldl
      (fun promise_chain item =>
        prom_then promise_chain (fun chain_results =>
          prom_then (item ()) (fun result => prom_pure (chain_results ++ [result]))))
      (settled d (Except.ok rs))
      = settled (d ++ List.range' i (invokedCount outs))
          ((serialResult outs).map (fun vs => rs ++ vs)) := by
  induction outs with
  | nil =>
      intro i d rs
      simp [mkTasks, invokedCount, serialResult, Except.map]
  | cons out rest ih =>
      intro i d rs
      cases out with
      | ok v =>
          simp only [mkTasks, List.foldl_cons, serialize_step_ok, Except.map]
          rw [ih (i + 1) (d ++ [i]) (rs ++ [v])]
          simp only [invokedCount, serialResult, List.range'_succ, List.append_assoc,
            List.singleton_append]
          cases serialResult rest with
          | ok vs => simp [Except.map]
          | error e => simp [Except.map]
      | error e =>
          simp only [mkTasks, List.foldl_cons, serialize_step_ok, Except.map,
            serialize_fold_error]
          simp [invokedCount, serialResult, Except.map, List.range'_succ]

/-- Running `serialize_tasks` on the instrumented tasks from a list of
prescribed outcomes: the invocation trace is exactly `0, 1, …` up to the
number of invoked tasks, and the result is the serial result. -/
theorem serialize_tasks_spec {ε α : Type} (outs : List (Except ε α)) :
    serialize_tasks (mkTasks 0 outs) []
      = (List.range (invokedCount outs), serialResult outs) := by
  have h := serialize_fold_spec outs 0 [] []
  simp only [serialize_tasks]
  have hinit : (prom_pure [] : Prom ε (List α)) = settled [] (Except.ok []) := by
    funext t
    simp [prom_pure, settled]
  rw [hinit, h]
  simp only [settled, List.nil_append, List.range_eq_range']
  congr 1
  cases serialResult outs with
  | ok vs => simp [Except.map]
  | error e => simp [Except.map]

/-! ### Parameter grid builder (src/index.js lines 144-154)

JavaScript `Math.floor` is `Int.floor`, `/` is exact rational division
(exact for the magnitudes involved), and `%` is the truncated remainder
`a - b * trunc(a / b)`. -/

/-- Truncation toward zero, as JavaScript `Math.trunc` and the rounding
used by the `%` operator. -/
def jsTrunc (q : ℚ) : ℤ := if 0 ≤ q then ⌊q⌋ else ⌈q⌉

/-- JavaScript remainder `a % b` for finite nonzero `b`:
`a - b * trunc(a / b)`. -/
def jsMod (a b : ℚ) : ℚ := a - b * jsTrunc (a / b)

/-- Embedding of `Math.floor ((lomax * extmax) / (incr * incr))`, the
length of the array built in src/index.js line 147. -/
def grid_count (extmax lomax incr : ℕ) : ℕ :=
  (⌊((lomax : ℚ) * (extmax : ℚ)) / ((incr : ℚ) * (incr : ℚ))⌋).toNat

/-- Embedding of the grid construction (src/index.js lines 147-151):
index `i` ranges over the array and is mapped to
`num_external = (Math.floor (i / (lomax / incr)) + 1) * incr` and
`num_linkonce = (i % (lomax / incr) + 1) * incr`. -/
def build_grid (extmax lomax incr : ℕ) : List (ℚ × ℚ) :=
  (List.range (grid_count extmax lomax incr)).map (fun i =>
    ((⌊(i : ℚ) / ((lomax : ℚ) / (incr : ℚ))⌋ + 1) * (incr : ℚ),
     (jsMod (i : ℚ) ((lomax : ℚ) / (incr : ℚ)) + 1) * (incr : ℚ)))

theorem grid_count_eq_zero_iff (extmax lomax incr : ℕ) (h : 0 < incr) :
    grid_count extmax lomax incr = 0 ↔ lomax * extmax < incr * incr := by
  have hq : (0 : ℚ) < (incr : ℚ) := by exact_mod_cast h
  have hpos : (0 : ℚ) < (incr : ℚ) * (incr : ℚ) := by positivity
  unfold grid_count
  rw [Int.toNat_eq_zero, ← Int.lt_add_one_iff, Int.floor_lt]
  push_cast
  rw [div_lt_one hpos]
  constructor
  · intro hlt
    exact_mod_cast hlt
  · intro hlt
    exact_mod_cast hlt

theorem build_grid_eq_nil_iff (extmax lomax incr : ℕ) (h : 0 < incr) :
    build_grid extmax lomax incr = [] ↔ lomax * extmax < incr * incr := by
  rw [← grid_count_eq_zero_iff extmax lomax incr h]
  unfold build_grid
  cases hgc : grid_count extmax lomax incr with
  | zero => simp
  | succ n => simp [List.range_succ_eq_map]

/-! ### Result aggregation and the main pipeline (src/index.js lines 114-177) -/

/-- Embedding of the flattening reduce (src/index.js line 164):
`results.reduce ((acc, inner) => acc + inner.join (' ') + '\n', '')`. -/
def render_results (results : List (List Nat)) : String :=
  results.foldl
    (fun acc inner => acc ++ String.intercalate " " (inner.map toString) ++ "\n") ""

/-- The full text sent to the output (src/index.js line 167): header line
plus the flattened result rows. -/
def output_text (results : List (List Nat)) : String :=
  "external linkonce time\n" ++ render_results results

/-- One rendered row: the fields joined by single spaces, newline
terminated. -/
def row_line (inner : List Nat) : String :=
  String.intercalate " " (inner.map toString) ++ "\n"

theorem render_results_foldl (results : List (List Nat)) :
    ∀ acc : String,
      results.foldl (fun acc inner =>
          acc ++ String.intercalate " " (inner.map toString) ++ "\n") acc
        = acc ++ (results.map row_line).foldr (fun line rest => line ++ rest) "" := by
  induction results with
  | nil =>
      intro acc
      simp [String.append_empty]
  | cons r rest ih =>
      intro acc
      simp only [List.foldl_cons, List.map_cons, List.foldr_cons]
      rw [ih]
      simp [row_line, String.append_assoc]

/-- The aggregator renders one newline-terminated, space-separated line per
record, in input order, after the fixed header line. -/
theorem output_text_spec (results : List (List Nat)) :
    output_text results
      = "external linkonce time\n"
          ++ (results.map row_line).foldr (fun line rest => line ++ rest) "" := by
  unfold output_text render_results
  rw [render_results_foldl results ""]
  rw [String.empty_append]

/-- The state of the configured work directory as seen by `fs.stat` and
`fs.readdir`: missing, a non-directory, or a directory with its entries. -/
inductive FsNode where
  | absent
  | file
  | dir (entries : List String)
deriving DecidableEq

/-- Embedding of `check_work_directory` (src/index.js lines 85-99):
`fs.stat` rejects when the path is missing; a non-directory raises; a
non-empty directory raises unless `force`; otherwise resolve `true`. -/
def check_work_directory (node : FsNode) (force : Bool) : Except String Bool :=
  match node with
  | FsNode.absent => Except.error "ENOENT: no such file or directory"
  | FsNode.file => Except.error "The specified work directory is not a directory"
  | FsNode.dir entries =>
    if entries.length > 0 && !force then
      Except.error "The specified work directory was not empty (--force to continue anyway)"
    else
      Except.ok true

/-- Observable outcome of one invocation of `main`: the text written to the
output (file or stdout), if any, and the process exit code. -/
structure MainOutcome where
  written : Option String
  exitCode : Nat
deriving DecidableEq

/-- Embedding of the promise chain in `main` (src/index.js lines 142-176):
`check_work_directory(...).then(() => serialize_tasks(...)).then(results =>
write formatted output).catch(err => { process.exitCode = 1 })`.  A
rejection anywhere skips the rest of the chain, writes nothing and sets the
exit code to 1; the tasks run only after the check has passed.  The first
component of the result is the invocation trace of the tasks. -/
def main_model (check : Except String Bool)
    (tasks : List (Unit → Prom String (List Nat))) : List Nat × MainOutcome :=
  match check with
  | Except.error _ => ([], { written := none, exitCode := 1 })
  | Except.ok _ =>
    match serialize_tasks tasks [] with
    | (trace, Except.ok results) =>
        (trace, { written := some (output_text results), exitCode := 0 })
    | (trace, Except.error _) =>
        (trace, { written := none, exitCode := 1 })

/-! ### Workspace cleaner (src/index.js lines 20-39)

The work directory is a duplicate-free list of file names.  `glob`
evaluates a pattern against the current directory contents and returns the
matching (hence existing) files; `fs.unlinkSync` deletes one file and
throws `ENOENT` if it does not exist. -/

/-- Embedding of `fs.unlinkSync`: remove the file, failing when absent. -/
def unlinkSync (fs : List String) (f : String) : Except String (List String) :=
  if f ∈ fs then Except.ok (fs.erase f) else Except.error "ENOENT: no such file or directory"

/-- Embedding of one `clean` step (src/index.js lines 32-35): glob the
pattern against the directory, then unlink every match in order. -/
def clean (fs : List String) (isMatch : String → Bool) : Except String (List String) :=
  (fs.filter isMatch).foldlM unlinkSync fs

/-- Suffix test on the underlying character lists; the semantics of
`String.endsWith` for the ASCII names involved. -/
def ends_with (f : String) (suffix : String) : Bool :=
  suffix.data.isSuffixOf f.data

/-- The pattern `*.o` produced by `all_tickets_pattern` (src/index.js
lines 20-22), evaluated on names relative to the work directory. -/
def ticket_matches (f : String) : Bool := ends_with f ".o"

/-- The pattern `*.o.elf` (src/index.js line 37). -/
def elf_matches (f : String) : Bool := ends_with f ".o.elf"

/-- Embedding of `clean_all` (src/index.js lines 31-39): clean the ticket
files, then the converted ELF objects, then the repository database. -/
def clean_all (fs : List String) (repo : String) : Except String (List String) :=
  (clean fs ticket_matches).bind (fun fs1 =>
    (clean fs1 elf_matches).bind (fun fs2 =>
      clean fs2 (fun f => f == repo)))

theorem foldlM_unlink (l : List String) :
    ∀ fs : List String, l.Nodup → fs.Nodup → (∀ f ∈ l, f ∈ fs) →
      l.foldlM unlinkSync fs = Except.ok (fs.filter (fun f => !(decide (f ∈ l)))) := by
  induction l with
  | nil =>
      intro fs _ _ _
      simp only [List.foldlM_nil, List.not_mem_nil, decide_False, Bool.not_false,
        List.filter_true]
      rfl
  | cons a l ih =>
      intro fs hl hfs hsub
      have ha : a ∈ fs := hsub a (List.mem_cons_self a l)
      have hl' : l.Nodup := (List.nodup_cons.mp hl).2
      have hanotl : a ∉ l := (List.nodup_cons.mp hl).1
      have hsub' : ∀ f ∈ l, f ∈ fs.erase a := by
        intro f hf
        have hne : f ≠ a := by
          intro hfa
          subst hfa
          exact hanotl hf
        exact (List.mem_erase_of_ne hne).mpr (hsub f (List.mem_cons_of_mem a hf))
      have herase : (fs.erase a).Nodup := hfs.erase a
      have hunlink : unlinkSync fs a = Except.ok (fs.erase a) := by
        simp [unlinkSync, ha]
      have hstep : (a :: l).foldlM unlinkSync fs = l.foldlM unlinkSync (fs.erase a) := by
        rw [List.foldlM_cons, hunlink]
        rfl
      rw [hstep, ih (fs.erase a) hl' herase hsub']
      congr 1
      rw [hfs.erase_eq_filter a, List.filter_filter]
      apply List.filter_congr
      intro f _
      by_cases hfa : f = a
      · subst hfa
        simp
      · by_cases hfl : f ∈ l <;> simp [hfa, hfl]

/-- A clean step never fails on a duplicate-free directory and removes
exactly the matching files. -/
theorem clean_spec (fs : List String) (isMatch : String → Bool) (hfs : fs.Nodup) :
    clean fs isMatch = Except.ok (fs.filter (fun f => !(isMatch f))) := by
  unfold clean
  rw [foldlM_unlink (fs.filter isMatch) fs (hfs.filter isMatch) hfs
    (fun f hf => List.mem_of_mem_filter hf)]
  congr 1
  apply List.filter_congr
  intro f hf
  by_cases hm : isMatch f
  · simp [hm, List.mem_filter, hf]
  · simp [hm, List.mem_filter]

/-- The directory contents after a successful `clean_all`: everything that
is neither a ticket file, a converted ELF object, nor the repository
database. -/
def cleaned (fs : List String) (repo : String) : List String :=
  fs.filter (fun f => !(ticket_matches f) && !(elf_matches f) && !(f == repo))

theorem clean_all_spec (fs : List String) (repo : String) (hfs : fs.Nodup) :
    clean_all fs repo = Except.ok (cleaned fs repo) := by
  unfold clean_all
  rw [clean_spec fs ticket_matches hfs]
  have h1 : (fs.filter (fun f => !(ticket_matches f))).Nodup := hfs.filter _
  simp only [Except.bind]
  rw [clean_spec _ elf_matches h1]
  have h2 : ((fs.filter (fun f => !(ticket_matches f))).filter
      (fun f => !(elf_matches f))).Nodup := h1.filter _
  simp only [Except.bind]
  rw [clean_spec _ (fun f => f == repo) h2]
  congr 1
  rw [List.filter_filter, List.filter_filter]
  unfold cleaned
  apply List.filter_congr
  intro f _
  cases ticket_matches f <;> cases elf_matches f <;> cases f == repo <;> rfl

/-! ### Single-run executor (src/index.js lines 41-77)

The external tool runner (`./run`, spec section 2 "External Tool Runner")
is not part of this file's sources.  Modelled from the spec: a thin
adapter exposing four capability operations — generate synthetic modules,
convert a ticket to a linkable object, link via the repo linker, link via
a traditional linker — implemented as subprocess invocations with
success/failure outcomes.  Each operation is an opaque outcome; the
generator additionally writes its ticket files into the work directory. -/

/-- The hard-coded linker-selection flag (src/index.js line 41). -/
def is_repo_linker : Bool := true

/-- The hard-coded repository database name (src/index.js line 43). -/
def repo_name : String := "repository.db"

/-- One subprocess invocation made by `single_run`, with its arguments. -/
inductive ToolCall where
  | rld_gen (modules external linkonce : Nat)
  | repo2obj (ticket elf : String)
  | rld (inputs : List String) (out : String)
  | lld (inputs : List String) (out : String)
deriving DecidableEq

/-- Modelled from the spec: outcomes of the opaque external tools for one
run.  `gen_files` are the ticket files the generator leaves in the work
directory when it succeeds. -/
structure RunnerOps where
  rld_gen : Except String Unit
  gen_files : List String
  repo2obj : String → Except String Unit
  rld : Except String Unit
  lld : Except String Unit

/-- Embedding of the `repo2obj` fan-out (src/index.js lines 63-69),
sequentialized: convert each ticket file to `ticket + '.elf'`; the first
failure aborts the rest.  (Dead code while `is_repo_linker` is true.) -/
def conversion_step (ops : RunnerOps) (tickets : List String) :
    List ToolCall × Except String (List String) :=
  tickets.foldl
    (fun acc t =>
      match acc with
      | (log, Except.error e) => (log, Except.error e)
      | (log, Except.ok outs) =>
        match ops.repo2obj t with
        | Except.ok _ => (log ++ [ToolCall.repo2obj t (t ++ ".elf")], Except.ok (outs ++ [t ++ ".elf"]))
        | Except.error e => (log ++ [ToolCall.repo2obj t (t ++ ".elf")], Except.error e))
    ([], Except.ok [])

/-- Ticket files found by the glob after generation (src/index.js line 56),
for a run starting from work directory `fs0`. -/
def generated_tickets (ops : RunnerOps) (fs0 : List String) : List String :=
  match clean_all fs0 repo_name with
  | Except.error _ => []
  | Except.ok fs1 => (fs1 ++ ops.gen_files).filter ticket_matches

/-- Embedding of `single_run` (src/index.js lines 52-77): clean the work
directory, run the generator, glob the ticket files, either pass them
straight to the repo linker (`is_repo_linker`) or convert them first and
use the traditional linker, and time the link.  Returns the ordered list
of subprocess invocations and the elapsed time or the propagated error. -/
def single_run (ops : RunnerOps) (fs0 : List String)
    (num_modules num_external num_linkonce : Nat) (elapsed : Nat) :
    List ToolCall × Except String Nat :=
  match clean_all fs0 repo_name with
  | Except.error e => ([], Except.error e)
  | Except.ok fs1 =>
    match ops.rld_gen with
    | Except.error e => ([ToolCall.rld_gen num_modules num_external num_linkonce], Except.error e)
    | Except.ok _ =>
      let fs2 := fs1 ++ ops.gen_files
      let ticket_files := fs2.filter ticket_matches
      let branch : List ToolCall × Except String (List String) :=
        if is_repo_linker then ([], Except.ok ticket_files)
        else conversion_step ops ticket_files
      match branch with
      | (blog, Except.error e) =>
          (ToolCall.rld_gen num_modules num_external num_linkonce :: blog, Except.error e)
      | (blog, Except.ok ld_inputs) =>
        let link_call :=
          if is_repo_linker then ToolCall.rld ld_inputs "a.out"
          else ToolCall.lld ld_inputs "a.out"
        match (if is_repo_linker then ops.rld else ops.lld) with
        | Except.error e =>
            (ToolCall.rld_gen num_modules num_external num_linkonce :: blog ++ [link_call],
              Except.error e)
        | Except.ok _ =>
            (ToolCall.rld_gen num_modules num_external num_linkonce :: blog ++ [link_call],
              Except.ok elapsed)

/-! ### Helper lemmas for the serial-runner claims -/

theorem invokedCount_map_ok {ε α : Type} (vals : List α) :
    invokedCount (ε := ε) (vals.map Except.ok) = vals.length := by
  induction vals with
  | nil => rfl
  | cons v vs ih => simp [invokedCount, ih]

theorem serialResult_map_ok {ε α : Type} (vals : List α) :
    serialResult (ε := ε) (vals.map Except.ok) = Except.ok vals := by
  induction vals with
  | nil => rfl
  | cons v vs ih => simp [serialResult, ih, Except.map]

theorem invokedCount_first_error {ε α : Type} (pre : List α) (e : ε)
    (post : List (Except ε α)) :
    invokedCount (pre.map Except.ok ++ Except.error e :: post) = pre.length + 1 := by
  induction pre with
  | nil => rfl
  | cons v vs ih => simp [invokedCount, ih]

theorem serialResult_first_error {ε α : Type} (pre : List α) (e : ε)
    (post : List (Except ε α)) :
    serialResult (pre.map Except.ok ++ Except.error e :: post) = Except.error e := by
  induction pre with
  | nil => rfl
  | cons v vs ih => simp [serialResult, ih, Except.map]

/-! ### Claim theorems -/

/-- C1: the serial task runner, given an ordered sequence of zero-argument
asynchronous tasks, executes them strictly one after another — the
invocation trace of instrumented tasks is exactly `0, 1, …` in order, each
task being invoked only once the chain carrying its predecessor's result
has settled — and for all-successful tasks it resolves to the sequence of
results in the same order as the input tasks. -/
theorem serialize_tasks_strictly_serial :
    (∀ outs : List (Except String Nat),
      serialize_tasks (mkTasks 0 outs) []
        = (List.range (invokedCount outs), serialResult outs)) ∧
    (∀ vals : List Nat,
      serialize_tasks (mkTasks 0 (vals.map Except.ok : List (Except String Nat))) []
        = (List.range vals.length, Except.ok vals)) := by
  refine ⟨fun outs => serialize_tasks_spec outs, fun vals => ?_⟩
  rw [serialize_tasks_spec, invokedCount_map_ok, serialResult_map_ok]

/-- C2: the serial task runner stops at the first failing task and
propagates that failure: only tasks `0 … k` are ever invoked when task `k`
is the first to fail, the overall result is the error (no partial result
array), and in particular for `[ok 1, ok 2, fail, ok 3]` the fourth task is
never invoked. -/
theorem serialize_tasks_stops_at_first_failure :
    (∀ (pre : List Nat) (e : String) (post : List (Except String Nat)),
      serialize_tasks (mkTasks 0 (pre.map Except.ok ++ Except.error e :: post)) []
        = (List.range (pre.length + 1), Except.error e)) ∧
    serialize_tasks (mkTasks 0
        [Except.ok 1, Except.ok 2, Except.error "failed", Except.ok 3]) []
      = ([0, 1, 2], Except.error "failed") := by
  constructor
  · intro pre e post
    rw [serialize_tasks_spec, invokedCount_first_error, serialResult_first_error]
  · rfl

/-- C10: with an empty task list (empty grid) the serial runner resolves to
the empty result array, and `main` still writes exactly the header line
with no data rows, exiting successfully. -/
theorem main_empty_grid_header_only :
    serialize_tasks ([] : List (Unit → Prom String (List Nat))) [] = ([], Except.ok [])
    ∧ main_model (Except.ok true) []
        = ([], { written := some "external linkonce time\n", exitCode := 0 }) := by
  constructor
  · rfl
  · rfl

/-- C4: for `external_max = 4000, linkonce_max = 4000, increment = 2000`
the grid builder produces exactly `[(2000,2000), (2000,4000), (4000,2000),
(4000,4000)]` — linkonce varying fastest, external slowest. -/
theorem build_grid_4000_4000_2000 :
    build_grid 4000 4000 2000 =
      [(2000, 2000), (2000, 4000), (4000, 2000), (4000, 4000)] := by
  have h4 : grid_count 4000 4000 2000 = 4 := by
    norm_num [grid_count]
    try rfl
  norm_num [build_grid, h4, jsMod, jsTrunc, List.range_succ]

/-- C3 counterexample: the claim says the grid is empty whenever one
maximum is below the increment, and in particular for
`external_max = 1000, linkonce_max = 5000, increment = 2000`; but the code
sizes the grid as `floor((linkonce_max * external_max) / increment²)`,
which here is `floor(1.25) = 1`, so the generated sequence is the single
point `(2000, 2000)` and not empty. -/
theorem build_grid_small_max_not_nil :
    1000 < 2000 ∧ build_grid 1000 5000 2000 = [(2000, 2000)]
      ∧ build_grid 1000 5000 2000 ≠ [] := by
  have h1 : grid_count 1000 5000 2000 = 1 := by
    norm_num [grid_count]
    try rfl
  have hg : build_grid 1000 5000 2000 = [(2000, 2000)] := by
    norm_num [build_grid, h1, jsMod, jsTrunc, List.range_succ]
  refine ⟨by norm_num, hg, ?_⟩
  rw [hg]
  simp

/-- C3 amended: the generated grid is empty exactly when
`linkonce_max * external_max < increment²` (so, in particular, when both
maxima are below the increment), and the sweep then has zero grid points;
for `external_max = 1000, linkonce_max = 5000, increment = 2000` the grid
is the single point `(2000, 2000)` rather than empty. -/
theorem build_grid_empty_iff :
    (∀ extmax lomax incr : Nat, 0 < incr →
      (build_grid extmax lomax incr = [] ↔ lomax * extmax < incr * incr)) ∧
    build_grid 1000 5000 2000 = [(2000, 2000)] := by
  constructor
  · intro extmax lomax incr h
    exact build_grid_eq_nil_iff extmax lomax incr h
  · have h1 : grid_count 1000 5000 2000 = 1 := by
      norm_num [grid_count]
      try rfl
    norm_num [build_grid, h1, jsMod, jsTrunc, List.range_succ]

/-- C3 witness: the amended equivalence applied at the concrete
configuration `external_max = 1000, linkonce_max = 500, increment = 2000`,
whose grid is empty. -/
theorem build_grid_empty_iff_witness :
    build_grid 1000 500 2000 = [] :=
  (build_grid_empty_iff.1 1000 500 2000 (by norm_num)).mpr (by norm_num)

/-- C6: the result aggregator renders the header line naming the three
fields, then one newline-terminated line per record with the fields
separated by single spaces, in input order; on
`[(2000,2000,150), (2000,4000,300)]` the output is exactly the quoted
string. -/
theorem output_text_renders_rows :
    (∀ results : List (List Nat),
      output_text results
        = "external linkonce time\n"
            ++ (results.map row_line).foldr (fun line rest => line ++ rest) "") ∧
    output_text [[2000, 2000, 150], [2000, 4000, 300]]
      = "external linkonce time\n2000 2000 150\n2000 4000 300\n" := by
  constructor
  · exact output_text_spec
  · rfl

/-- C5: if the sweep fails (the serialized tasks reject), `main` writes no
output at all — neither to the output file nor stdout — and the process
exit code is set to 1; and for any outcome of the work-directory check, a
failing sweep never produces written output. -/
theorem main_no_output_on_failure
    (tasks : List (Unit → Prom String (List Nat))) (tr : List Nat) (e : String)
    (hfail : serialize_tasks tasks [] = (tr, Except.error e)) :
    main_model (Except.ok true) tasks = (tr, { written := none, exitCode := 1 })
    ∧ ∀ check : Except String Bool, (main_model check tasks).2.written = none := by
  constructor
  · simp only [main_model, hfail]
  · intro check
    cases check with
    | error err => simp [main_model]
    | ok b => simp only [main_model, hfail]

/-- C5 witness: a one-task sweep whose task rejects writes nothing and
exits with code 1. -/
theorem main_no_output_on_failure_witness :
    main_model (Except.ok true) (mkTasks 0 [Except.error "link failed"])
      = ([0], { written := none, exitCode := 1 }) :=
  (main_no_output_on_failure (mkTasks 0 [Except.error "link failed"]) [0]
    "link failed" (by rfl)).1

/-- C7: pre-run validation fails — and then no task is ever invoked, no
output is written, and the exit code is 1 — precisely unless the work
directory exists, is a directory, and is empty or `--force` was given;
when it passes it resolves `true` and `main` merely proceeds. -/
theorem check_work_directory_gates_main
    (node : FsNode) (force : Bool)
    (tasks : List (Unit → Prom String (List Nat))) (e : String) :
    (check_work_directory node force = Except.error e →
      main_model (check_work_directory node force) tasks
        = ([], { written := none, exitCode := 1 })) ∧
    (check_work_directory node force = Except.ok true ↔
      ∃ entries, node = FsNode.dir entries ∧ (entries = [] ∨ force = true)) := by
  constructor
  · intro herr
    rw [herr]
    rfl
  · cases node with
    | absent => simp [check_work_directory]
    | file => simp [check_work_directory]
    | dir entries =>
        cases entries with
        | nil => simp [check_work_directory]
        | cons f fsr =>
            cases force with
            | true => simp [check_work_directory]
            | false => simp [check_work_directory]

/-- C7 witness: a non-directory work directory makes `main` fail before any
task is invoked. -/
theorem check_work_directory_gates_main_witness :
    main_model (check_work_directory FsNode.file false) []
      = ([], { written := none, exitCode := 1 }) :=
  (check_work_directory_gates_main FsNode.file false []
    "The specified work directory is not a directory").1 (by rfl)

/-- C8: the workspace cleaner deletes all ticket files, all converted
object files, and the repository database if present; absent files cause
no error (the cleaner succeeds on every duplicate-free directory state),
and running it again on the already-clean directory succeeds and changes
nothing. -/
theorem clean_all_idempotent (fs : List String) (repo : String) (hfs : fs.Nodup) :
    clean_all fs repo = Except.ok (cleaned fs repo)
    ∧ (∀ f ∈ cleaned fs repo,
        ticket_matches f = false ∧ elf_matches f = false ∧ f ≠ repo)
    ∧ clean_all (cleaned fs repo) repo = Except.ok (cleaned fs repo) := by
  refine ⟨clean_all_spec fs repo hfs, ?_, ?_⟩
  · intro f hf
    obtain ⟨-, hp⟩ := List.mem_filter.mp hf
    simp only [Bool.and_eq_true, Bool.not_eq_true'] at hp
    refine ⟨hp.1.1, hp.1.2, ?_⟩
    intro hfr
    subst hfr
    simp at hp
  · have hnod : (cleaned fs repo).Nodup := hfs.filter _
    rw [clean_all_spec (cleaned fs repo) repo hnod]
    congr 1
    unfold cleaned
    rw [List.filter_filter]
    apply List.filter_congr
    intro f _
    cases hT : ticket_matches f <;> cases hE : elf_matches f <;>
      cases hR : f == repo <;> simp [hT, hE, hR]

/-- C8 witness: cleaning a directory holding one ticket file, one converted
object, the database and one unrelated file leaves only the unrelated
file; cleaning again succeeds and leaves it untouched. -/
theorem clean_all_idempotent_witness :
    clean_all ["a.o", "x.o.elf", "repository.db", "keep.md"] "repository.db"
      = Except.ok ["keep.md"]
    ∧ clean_all ["keep.md"] "repository.db" = Except.ok ["keep.md"] := by
  have h := clean_all_idempotent ["a.o", "x.o.elf", "repository.db", "keep.md"]
    "repository.db" (by decide)
  exact ⟨h.1, h.2.2⟩

/-- C9: the linker-selection flag is the hard-coded constant `true`, so
`single_run` always takes the repo-linker branch: it never invokes
`repo2obj` or `lld`, and any `rld` invocation receives exactly the globbed
ticket files and the fixed output path. -/
theorem single_run_always_repo_linker :
    is_repo_linker = true ∧
    ∀ (ops : RunnerOps) (fs0 : List String) (nm ne nl el : Nat) (c : ToolCall),
      c ∈ (single_run ops fs0 nm ne nl el).1 →
        (∀ t o, c ≠ ToolCall.repo2obj t o) ∧
        (∀ ins o, c ≠ ToolCall.lld ins o) ∧
        (∀ ins o, c = ToolCall.rld ins o →
          ins = generated_tickets ops fs0 ∧ o = "a.out") := by
  refine ⟨rfl, ?_⟩
  intro ops fs0 nm ne nl el c hc
  cases hclean : clean_all fs0 repo_name with
  | error e =>
      simp [single_run, hclean] at hc
  | ok fs1 =>
      cases hgen : ops.rld_gen with
      | error e =>
          simp [single_run, hclean, hgen] at hc
          subst hc
          exact ⟨fun t o h => ToolCall.noConfusion h,
            fun ins o h => ToolCall.noConfusion h,
            fun ins o h => ToolCall.noConfusion h⟩
      | ok u =>
          cases hrld : ops.rld with
          | error e =>
              simp [single_run, hclean, hgen, hrld, is_repo_linker] at hc
              rcases hc with rfl | rfl
              · exact ⟨fun t o h => ToolCall.noConfusion h,
                  fun ins o h => ToolCall.noConfusion h,
                  fun ins o h => ToolCall.noConfusion h⟩
              · refine ⟨fun t o h => ToolCall.noConfusion h,
                  fun ins o h => ToolCall.noConfusion h, fun ins o h => ?_⟩
                injection h with h1 h2
                constructor
                · rw [← h1]
                  simp [generated_tickets, hclean]
                · exact h2.symm
          | ok u2 =>
              simp [single_run, hclean, hgen, hrld, is_repo_linker] at hc
              rcases hc with rfl | rfl
              · exact ⟨fun t o h => ToolCall.noConfusion h,
                  fun ins o h => ToolCall.noConfusion h,
                  fun ins o h => ToolCall.noConfusion h⟩
              · refine ⟨fun t o h => ToolCall.noConfusion h,
                  fun ins o h => ToolCall.noConfusion h, fun ins o h => ?_⟩
                injection h with h1 h2
                constructor
                · rw [← h1]
                  simp [generated_tickets, hclean]
                · exact h2.symm

/-- C9 witness: a successful run from an empty work directory with one
generated ticket file invokes the repo linker on exactly that ticket file,
and that call is not a conversion. -/
theorem single_run_always_repo_linker_witness :
    ToolCall.rld ["m.o"] "a.out"
        ∈ (single_run
            ⟨Except.ok (), ["m.o"], fun _ => Except.ok (), Except.ok (), Except.ok ()⟩
            [] 2 2000 2000 150).1
    ∧ ∀ t o, ToolCall.rld ["m.o"] "a.out" ≠ ToolCall.repo2obj t o := by
  have hmem : ToolCall.rld ["m.o"] "a.out"
      ∈ (single_run
          ⟨Except.ok (), ["m.o"], fun _ => Except.ok (), Except.ok (), Except.ok ()⟩
          [] 2 2000 2000 150).1 := by
    decide
  exact ⟨hmem,
    (single_run_always_repo_linker.2 _ [] 2 2000 2000 150 _ hmem).1⟩
